import Mathlib

/-!
Verification of the Morrowind NPC name generator.

The repository contains three near-duplicate variants of one design:
* `src/js/generator.js` — the main variant; existing pairs are reconstructed as a
  cross product of firstnames and lastnames sharing a provenance tag
  (namespace `Generator` below);
* `src/unnamed/part_000` — a variant that loads dedicated full-name records
  (namespace `FullnameVariant`);
* `src/unnamed/part_001` — a variant that loads one flat NPC file per race/sex
  (namespace `FlatFileVariant`);
and the shared edit-distance comparator `src/js/levenshtein.js`.

Modelling conventions: a JavaScript `Set` is modelled as a list with membership
semantics (`has` is `∈`, `add` prepends); the `Math.random()` pool draws are
modelled as an explicit function from the attempt counter to a pair of indices,
reduced modulo the pool size so that exactly the in-range indices are reachable;
the bounded `while` loop of `generate` is modelled with explicit fuel equal to
its attempt budget; thrown errors are modelled with `Except`.
-/

/-- JS `String.prototype.toLowerCase`, character by character. -/
def toLowerCase (s : String) : String :=
  String.mk (s.data.map Char.toLower)

/-! ### src/js/levenshtein.js

The source fills a `(|b|+1) × (|a|+1)` matrix row by row; row `i`, column `j`
holds the distance between the length-`i` prefix of `b` and the length-`j`
prefix of `a`.  `levRowAux` computes the entries `1..|a|` of one row from the
previous row (`diag` is `matrix[i-1][j-1]`, the head of the remaining previous
row; `up` is `matrix[i-1][j]`; `left` is `matrix[i][j-1]`), and `levLoop` folds
over the characters of `b`, seeding each row with its index `i`. -/
def levRowAux (bc : Char) : List Char → List Nat → Nat → List Nat
  | a :: as, diag :: restPrev, left =>
      let up := restPrev.headD 0
      let cur := if bc = a then diag else min (diag + 1) (min (left + 1) (up + 1))
      cur :: levRowAux bc as restPrev cur
  | _, _, _ => []

def levLoop (as : List Char) : List Char → List Nat → Nat → List Nat
  | [], row, _ => row
  | bc :: bs, row, i => levLoop as bs ((i + 1) :: levRowAux bc as row (i + 1)) (i + 1)

/-- Body of `levenshteinDistance` once both arguments have been lowered. -/
def levenshteinCore (aLower bLower : String) : Nat :=
  if aLower = bLower then 0
  else if aLower.length = 0 then bLower.length
  else if bLower.length = 0 then aLower.length
  else (levLoop aLower.data bLower.data (List.range (aLower.data.length + 1)) 0).getD
    aLower.data.length 0

/-- `levenshteinDistance` from src/js/levenshtein.js. -/
def levenshteinDistance (a b : String) : Nat :=
  levenshteinCore (toLowerCase a) (toLowerCase b)

/-- `areTooSimilar` from src/js/levenshtein.js (the threshold parameter is
passed explicitly; every call site in the sources passes the default 3). -/
def areTooSimilar (name1 name2 : String) (threshold : Nat) : Bool :=
  levenshteinDistance name1 name2 < threshold

/-! Reference edit distance (the textbook recurrence, consuming characters from
the head), used to reason about the matrix computation. -/
def levR : List Char → List Char → Nat
  | [], bs => bs.length
  | as, [] => as.length
  | a :: as, b :: bs =>
      if a = b then levR as bs
      else 1 + min (levR as bs) (min (levR (a :: as) bs) (levR as (b :: bs)))
  termination_by as bs => as.length + bs.length
  decreasing_by all_goals simp [List.length_cons] <;> omega

/-- The prefixes of `acc ++ l` that extend `acc`, in order of length. -/
def prefs (acc : List Char) : List Char → List (List Char)
  | [] => [acc]
  | a :: as => acc :: prefs (acc ++ [a]) as

/-- Edit distance on prefixes: the recurrence peels characters off the right
end, matching how the matrix rows and columns grow. -/
def levP (x y : List Char) : Nat :=
  levR x.reverse y.reverse

/-! ### Shared data model -/

/-- One entry of a word list together with its provenance tag
(`{name, source}` in the sources). -/
structure NameRec where
  name : String
  source : String
  deriving DecidableEq

/-- One generated output pair. -/
structure GeneratedPair where
  firstname : String
  lastname : String
  deriving DecidableEq

/-- The attempted-set key of a pair, `lower(first) + "|" + lower(last)`. -/
def pairKey (p : GeneratedPair) : String :=
  toLowerCase p.firstname ++ "|" ++ toLowerCase p.lastname

/-- Errors thrown by `generate`: the messages `Data not loaded`,
`No firstnames available (check source filter and blacklist)` and
`No lastnames available (check source filter and blacklist)`. -/
inductive GenError where
  | notLoaded
  | noFirstnames
  | noLastnames
  deriving DecidableEq

/-- Errors thrown by `loadData`: the messages `No firstnames found` and
`No lastnames found`. -/
inductive LoadError where
  | noFirstnames
  | noLastnames
  deriving DecidableEq

/-- The blacklist-aware case-insensitive dedup loop shared by `getFirstnames`
and `getLastnames` in generator.js and part_000: keep the first occurrence of
each lowercased name, skipping blacklisted ones; `seen` accumulates the
lowercased names already kept. -/
def dedupNames (blacklist : List String) : List NameRec → List String → List String
  | [], _ => []
  | fn :: rest, seen =>
      let lowered := toLowerCase fn.name
      if lowered ∈ blacklist ∨ lowered ∈ seen then dedupNames blacklist rest seen
      else fn.name :: dedupNames blacklist rest (toLowerCase fn.name :: seen)

/-- The bounded rejection-sampling `while` loop of `generate` in generator.js
and part_000, parameterised by the similarity check.  `fuel` is the remaining
attempt budget (`maxAttempts - attempts`), `attempts` indexes the random
source, `results` and `attempted` are the loop state. -/
def sampleLoop (check : String → String → Bool) (fns lns : List String) (count : Nat)
    (rand : Nat → Nat × Nat) : Nat → Nat → List GeneratedPair → List String → List GeneratedPair
  | 0, _, results, _ => results
  | fuel + 1, attempts, results, attempted =>
      if results.length < count then
        let firstname := fns.getD ((rand attempts).1 % fns.length) ""
        let lastname := lns.getD ((rand attempts).2 % lns.length) ""
        let key := toLowerCase firstname ++ "|" ++ toLowerCase lastname
        if key ∈ attempted then
          sampleLoop check fns lns count rand fuel (attempts + 1) results attempted
        else if check firstname lastname then
          sampleLoop check fns lns count rand fuel (attempts + 1) results (key :: attempted)
        else
          sampleLoop check fns lns count rand fuel (attempts + 1)
            (results ++ [⟨firstname, lastname⟩]) (key :: attempted)
      else results

/-! ### src/js/generator.js (namespace `Generator`)

Existing pairs are reconstructed as the cross product, per provenance tag, of
all loaded firstnames and lastnames; the lazily built `_existingPairsCache` is
modelled by the pure function `existingPairs` (the cache is an optimisation
with no observable effect). -/

namespace Generator

structure St where
  allFirstnames : List NameRec
  allLastnames : List NameRec
  blacklistedFirstnames : List String
  blacklistedLastnames : List String
  loaded : Bool
  deriving DecidableEq

/-- The source filter of `getFirstnames`: `vanilla` keeps the base tag,
`expanded` keeps exactly the tags `tr`, `sky`, `pc`, anything else keeps
everything. -/
def filterFirstnames (st : St) (sourceFilter : String) : List NameRec :=
  if sourceFilter = "vanilla" then st.allFirstnames.filter (fun fn => fn.source == "vanilla")
  else if sourceFilter = "expanded" then
    st.allFirstnames.filter (fun fn => fn.source == "tr" || fn.source == "sky" || fn.source == "pc")
  else st.allFirstnames

def getFirstnames (st : St) (sourceFilter : String) : List String :=
  dedupNames st.blacklistedFirstnames (filterFirstnames st sourceFilter) []

def filterLastnames (st : St) (sourceFilter : String) : List NameRec :=
  if sourceFilter = "vanilla" then st.allLastnames.filter (fun ln => ln.source == "vanilla")
  else if sourceFilter = "expanded" then
    st.allLastnames.filter (fun ln => ln.source == "tr" || ln.source == "sky" || ln.source == "pc")
  else st.allLastnames

def getLastnames (st : St) (sourceFilter : String) : List String :=
  dedupNames st.blacklistedLastnames (filterLastnames st sourceFilter) []

/-- The `_existingPairsCache` contents: every (lowercased) firstname/lastname
pair whose two components share a provenance tag.  The JS `Set` of
`"fn|ln"` keys is modelled as a list of component pairs with membership
semantics; neither blacklist is consulted, exactly as in the source. -/
def existingPairs (st : St) : List (String × String) :=
  st.allFirstnames.flatMap (fun fn =>
    (st.allLastnames.filter (fun ln => ln.source == fn.source)).map
      (fun ln => (toLowerCase fn.name, toLowerCase ln.name)))

/-- The similarity scan of `isTooSimilarToExisting` (lines 322-330): some
existing pair has this exact (lowercased) lastname and a firstname within the
threshold. -/
def existsSimilar (pairs : List (String × String)) (fnLower lnLower : String) : Bool :=
  pairs.any (fun e => e.2 == lnLower && areTooSimilar fnLower e.1 3)

/-- `isTooSimilarToExisting`: exact-pair membership, then the same-lastname
similarity scan. -/
def isTooSimilarToExisting (st : St) (firstname lastname : String) : Bool :=
  let fnLower := toLowerCase firstname
  let lnLower := toLowerCase lastname
  let pairs := existingPairs st
  if (fnLower, lnLower) ∈ pairs then true
  else existsSimilar pairs fnLower lnLower

/-- `generate` from generator.js; the attempt budget is `count * 500`. -/
def generate (st : St) (count : Nat) (sourceFilter : String) (rand : Nat → Nat × Nat) :
    Except GenError (List GeneratedPair) :=
  if st.loaded = false then Except.error GenError.notLoaded
  else
    let firstnames := getFirstnames st sourceFilter
    let lastnames := getLastnames st sourceFilter
    if firstnames.length = 0 then Except.error GenError.noFirstnames
    else if lastnames.length = 0 then Except.error GenError.noLastnames
    else Except.ok (sampleLoop (isTooSimilarToExisting st) firstnames lastnames count rand
      (count * 500) 0 [] [])

/-- `loadData`, after the out-of-scope fetching has produced the raw record
lists and blacklists: assign the fields, then fail if the raw firstname or
lastname list is empty.  `loaded` is `false` on the error path (the `catch`
sets it) and `true` on success. -/
def loadData (fns lns : List NameRec) (blF blL : List String) : St × Option LoadError :=
  let st : St :=
    { allFirstnames := fns, allLastnames := lns, blacklistedFirstnames := blF,
      blacklistedLastnames := blL, loaded := false }
  if fns.length = 0 then (st, some LoadError.noFirstnames)
  else if lns.length = 0 then (st, some LoadError.noLastnames)
  else ({ st with loaded := true }, none)

end Generator

/-! ### src/unnamed/part_000 (namespace `FullnameVariant`)

Existing names are dedicated full-name records; the pool getters are the same
as in generator.js, the attempt budget is `count * 100`. -/

namespace FullnameVariant

structure St where
  allFirstnames : List NameRec
  allLastnames : List NameRec
  allFullnames : List NameRec
  blacklistedFirstnames : List String
  blacklistedLastnames : List String
  loaded : Bool
  deriving DecidableEq

def filterFirstnames (st : St) (sourceFilter : String) : List NameRec :=
  if sourceFilter = "vanilla" then st.allFirstnames.filter (fun fn => fn.source == "vanilla")
  else if sourceFilter = "expanded" then
    st.allFirstnames.filter (fun fn => fn.source == "tr" || fn.source == "sky" || fn.source == "pc")
  else st.allFirstnames

def getFirstnames (st : St) (sourceFilter : String) : List String :=
  dedupNames st.blacklistedFirstnames (filterFirstnames st sourceFilter) []

def filterLastnames (st : St) (sourceFilter : String) : List NameRec :=
  if sourceFilter = "vanilla" then st.allLastnames.filter (fun ln => ln.source == "vanilla")
  else if sourceFilter = "expanded" then
    st.allLastnames.filter (fun ln => ln.source == "tr" || ln.source == "sky" || ln.source == "pc")
  else st.allLastnames

def getLastnames (st : St) (sourceFilter : String) : List String :=
  dedupNames st.blacklistedLastnames (filterLastnames st sourceFilter) []

/-- `isTooSimilarToExisting` over full-name records: exact full-name match, or
— when the record splits into exactly two words — same lastname with a
firstname within the threshold. -/
def isTooSimilarToExisting (st : St) (firstname lastname : String) : Bool :=
  let candidateFull := toLowerCase (firstname ++ " " ++ lastname)
  st.allFullnames.any (fun r =>
    let existingLower := toLowerCase r.name
    candidateFull == existingLower ||
      (match existingLower.splitOn " " with
       | [existingFn, existingLn] =>
           existingLn == toLowerCase lastname && areTooSimilar (toLowerCase firstname) existingFn 3
       | _ => false))

/-- `generate` from part_000; the attempt budget is `count * 100`. -/
def generate (st : St) (count : Nat) (sourceFilter : String) (rand : Nat → Nat × Nat) :
    Except GenError (List GeneratedPair) :=
  if st.loaded = false then Except.error GenError.notLoaded
  else
    let firstnames := getFirstnames st sourceFilter
    let lastnames := getLastnames st sourceFilter
    if firstnames.length = 0 then Except.error GenError.noFirstnames
    else if lastnames.length = 0 then Except.error GenError.noLastnames
    else Except.ok (sampleLoop (isTooSimilarToExisting st) firstnames lastnames count rand
      (count * 100) 0 [] [])

end FullnameVariant

/-! ### src/unnamed/part_001 (namespace `FlatFileVariant`)

One flat NPC file per race/sex; records carry an optional lastname (single-word
names parse with `lastname: null`).  Only lastnames have a blacklist.  The
sampling loop has a third rejection: a pair case-insensitively equal to one
already in `results`. -/

namespace FlatFileVariant

structure NPC where
  firstname : String
  lastname : Option String
  source : String
  deriving DecidableEq

structure St where
  npcs : List NPC
  blacklistedLastnames : List String
  loaded : Bool
  deriving DecidableEq

def filterBySource (st : St) (sourceFilter : String) : List NPC :=
  if sourceFilter = "all" then st.npcs
  else st.npcs.filter (fun npc => npc.source == sourceFilter)

/-- The `Set`-based firstname collection: JS `Set` iteration order is insertion
order and dedup is by exact string; `if (npc.firstname)` skips the empty
string (falsy). -/
def collectFirstnames : List NPC → List String → List String
  | [], acc => acc
  | npc :: rest, acc =>
      if npc.firstname ≠ "" ∧ npc.firstname ∉ acc then
        collectFirstnames rest (acc ++ [npc.firstname])
      else collectFirstnames rest acc

def getFirstnames (st : St) (sourceFilter : String) : List String :=
  collectFirstnames (filterBySource st sourceFilter) []

/-- Lastname collection: skips records whose lastname is `null` or `""`
(falsy) or blacklisted (case-insensitively). -/
def collectLastnames (blacklist : List String) : List NPC → List String → List String
  | [], acc => acc
  | npc :: rest, acc =>
      match npc.lastname with
      | some ln =>
          if ln ≠ "" ∧ toLowerCase ln ∉ blacklist ∧ ln ∉ acc then
            collectLastnames blacklist rest (acc ++ [ln])
          else collectLastnames blacklist rest acc
      | none => collectLastnames blacklist rest acc

def getLastnames (st : St) (sourceFilter : String) : List String :=
  collectLastnames st.blacklistedLastnames (filterBySource st sourceFilter) []

/-- `isTooSimilarToExisting` over flat NPC records: records without a (truthy)
lastname are skipped (`if (!npc.lastname) continue`); otherwise exact full-name
match or same lastname with a firstname within the threshold. -/
def isTooSimilarToExisting (st : St) (firstname lastname : String) : Bool :=
  let candidateFull := toLowerCase (firstname ++ " " ++ lastname)
  st.npcs.any (fun npc =>
    match npc.lastname with
    | none => false
    | some npcLn =>
        if npcLn = "" then false
        else
          candidateFull == toLowerCase (npc.firstname ++ " " ++ npcLn) ||
            (toLowerCase npcLn == toLowerCase lastname && areTooSimilar firstname npc.firstname 3))

/-- The sampling loop of part_001: like `sampleLoop` but with the extra
`alreadyInResults` rejection before accepting. -/
def flatSampleLoop (check : String → String → Bool) (fns lns : List String) (count : Nat)
    (rand : Nat → Nat × Nat) : Nat → Nat → List GeneratedPair → List String → List GeneratedPair
  | 0, _, results, _ => results
  | fuel + 1, attempts, results, attempted =>
      if results.length < count then
        let firstname := fns.getD ((rand attempts).1 % fns.length) ""
        let lastname := lns.getD ((rand attempts).2 % lns.length) ""
        let key := toLowerCase firstname ++ "|" ++ toLowerCase lastname
        if key ∈ attempted then
          flatSampleLoop check fns lns count rand fuel (attempts + 1) results attempted
        else if check firstname lastname then
          flatSampleLoop check fns lns count rand fuel (attempts + 1) results (key :: attempted)
        else if results.any (fun r =>
            toLowerCase r.firstname == toLowerCase firstname &&
              toLowerCase r.lastname == toLowerCase lastname) then
          flatSampleLoop check fns lns count rand fuel (attempts + 1) results (key :: attempted)
        else
          flatSampleLoop check fns lns count rand fuel (attempts + 1)
            (results ++ [⟨firstname, lastname⟩]) (key :: attempted)
      else results

/-- `generate` from part_001; the attempt budget is `count * 100`. -/
def generate (st : St) (count : Nat) (sourceFilter : String) (rand : Nat → Nat × Nat) :
    Except GenError (List GeneratedPair) :=
  if st.loaded = false then Except.error GenError.notLoaded
  else
    let firstnames := getFirstnames st sourceFilter
    let lastnames := getLastnames st sourceFilter
    if firstnames.length = 0 then Except.error GenError.noFirstnames
    else if lastnames.length = 0 then Except.error GenError.noLastnames
    else Except.ok (flatSampleLoop (isTooSimilarToExisting st) firstnames lastnames count rand
      (count * 100) 0 [] [])

end FlatFileVariant

/-! ### Concrete datasets used by the claims -/

/-- The spec scenario of C1: candidate firstnames Aryon (base tag) and Dilborn
(expansion tag `tr`), lastname Savel (base tag); the per-source cross product
makes `Aryon Savel` the only existing pair. -/
def stAryon : Generator.St :=
  { allFirstnames := [⟨"Aryon", "vanilla"⟩, ⟨"Dilborn", "tr"⟩],
    allLastnames := [⟨"Savel", "vanilla"⟩],
    blacklistedFirstnames := [], blacklistedLastnames := [], loaded := true }

/-- A dataset whose only drawable pair (`Aryn Savel`) is rejected because of
the blacklisted firstname `Aryon`: the existing-pairs index is built without
consulting the blacklist. -/
def stSat : Generator.St :=
  { allFirstnames := [⟨"Aryon", "vanilla"⟩, ⟨"Aryn", "tr"⟩],
    allLastnames := [⟨"Savel", "vanilla"⟩],
    blacklistedFirstnames := ["aryon"], blacklistedLastnames := [], loaded := true }

/-- A dataset with a firstname whose provenance tag is neither the base tag
nor one of `tr`/`sky`/`pc`. -/
def stCustom : Generator.St :=
  { allFirstnames := [⟨"Foo", "custom"⟩],
    allLastnames := [⟨"Savel", "vanilla"⟩],
    blacklistedFirstnames := [], blacklistedLastnames := [], loaded := true }

/-- A flat-file dataset with a single-word NPC `Aryon` and a two-word NPC
`Teleri Savel`. -/
def stFlat : FlatFileVariant.St :=
  { npcs := [⟨"Aryon", none, "vanilla"⟩, ⟨"Teleri", some "Savel", "vanilla"⟩],
    blacklistedLastnames := [], loaded := true }

/-- A small loaded dataset for the fullname variant. -/
def stFull : FullnameVariant.St :=
  { allFirstnames := [⟨"Aryon", "vanilla"⟩],
    allLastnames := [⟨"Savel", "vanilla"⟩],
    allFullnames := [], blacklistedFirstnames := [], blacklistedLastnames := [], loaded := true }

/-! ### Properties of the edit-distance comparator -/

theorem levR_nil_right (as : List Char) : levR as [] = as.length := by
  cases as <;> simp [levR]

theorem levR_comm (as bs : List Char) : levR as bs = levR bs as := by
  induction as, bs using levR.induct with
  | case1 bs => simp [levR, levR_nil_right]
  | case2 as h => cases as with
      | nil => exact absurd rfl h
      | cons a as => simp [levR, levR_nil_right]
  | case3 b as bs ih => simp [levR, ih]
  | case4 a as b bs hne ih1 ih2 ih3 =>
      have hne2 : ¬ b = a := fun hh => hne hh.symm
      rw [levR, levR, if_neg hne, if_neg hne2, ih1, ih2, ih3]
      omega

theorem levP_nil_right (x : List Char) : levP x [] = x.length := by
  simp [levP, levR_nil_right]

theorem levP_nil_left (y : List Char) : levP [] y = y.length := by
  simp [levP, levR]

theorem levP_snoc (x y : List Char) (c d : Char) :
    levP (x ++ [c]) (y ++ [d]) =
      if c = d then levP x y
      else 1 + min (levP x y) (min (levP (x ++ [c]) y) (levP x (y ++ [d]))) := by
  simp only [levP, List.reverse_append, List.reverse_cons, List.reverse_nil, List.nil_append,
    List.cons_append, List.singleton_append]
  rw [levR]

theorem prefs_head_tail (acc : List Char) (l : List Char) :
    prefs acc l = acc :: (prefs acc l).tail := by
  cases l <;> simp [prefs]

/-- One row of the matrix: if the previous row holds the distances from the
processed prefix `bdone` of `b` to every prefix of `a` from `adone` on, then
`levRowAux` computes the distances from `bdone ++ [bc]`. -/
theorem levRowAux_spec (bc : Char) (bdone : List Char) :
    ∀ (asRest adone : List Char),
      levRowAux bc asRest ((prefs adone asRest).map (fun p => levP bdone p))
          (levP (bdone ++ [bc]) adone)
        = ((prefs adone asRest).tail).map (fun p => levP (bdone ++ [bc]) p) := by
  intro asRest
  induction asRest with
  | nil => intro adone; simp [prefs, levRowAux]
  | cons a asRest ih =>
      intro adone
      have hhead : ((prefs (adone ++ [a]) asRest).map (fun p => levP bdone p)).headD 0
          = levP bdone (adone ++ [a]) := by
        rw [prefs_head_tail (adone ++ [a]) asRest]; simp
      simp only [prefs, List.map_cons, List.tail_cons, levRowAux, hhead]
      have hcur : (if bc = a then levP bdone adone
          else min (levP bdone adone + 1)
            (min (levP (bdone ++ [bc]) adone + 1) (levP bdone (adone ++ [a]) + 1)))
          = levP (bdone ++ [bc]) (adone ++ [a]) := by
        rw [levP_snoc]
        by_cases h : bc = a
        · simp [h]
        · simp only [if_neg h]
          omega
      rw [hcur, ih (adone ++ [a])]
      rw [prefs_head_tail (adone ++ [a]) asRest]
      simp

/-- The row fold: starting from the distances for the prefix `bdone`, folding
the remaining characters of `b` yields the distances for all of `b`. -/
theorem levLoop_spec (as : List Char) :
    ∀ (bsRest bdone : List Char),
      levLoop as bsRest ((prefs [] as).map (fun p => levP bdone p)) bdone.length
        = (prefs [] as).map (fun p => levP (bdone ++ bsRest) p) := by
  intro bsRest
  induction bsRest with
  | nil => intro bdone; simp [levLoop]
  | cons bc bs ih =>
      intro bdone
      rw [levLoop]
      have hlen : bdone.length + 1 = (bdone ++ [bc]).length := by simp
      have hleft : bdone.length + 1 = levP (bdone ++ [bc]) [] := by
        rw [levP_nil_right]; simp
      have hrow : (bdone.length + 1) :: levRowAux bc as ((prefs [] as).map (fun p => levP bdone p))
            (bdone.length + 1)
          = (prefs [] as).map (fun p => levP (bdone ++ [bc]) p) := by
        rw [hleft, levRowAux_spec bc bdone as []]
        rw [prefs_head_tail [] as]
        simp [levP_nil_right]
      rw [hrow, hlen, ih (bdone ++ [bc])]
      simp

theorem prefs_map_length (l : List Char) :
    ∀ acc : List Char, (prefs acc l).map List.length = List.range' acc.length (l.length + 1) := by
  induction l with
  | nil => intro acc; simp [prefs, List.range'_succ]
  | cons a as ih =>
      intro acc
      simp only [prefs, List.map_cons, List.length_cons, List.range'_succ]
      rw [ih (acc ++ [a])]
      simp [List.range'_succ]

theorem prefs_map_getD (f : List Char → Nat) (l : List Char) :
    ∀ acc : List Char, ((prefs acc l).map f).getD l.length 0 = f (acc ++ l) := by
  induction l with
  | nil => intro acc; simp [prefs]
  | cons a as ih =>
      intro acc
      simp only [prefs, List.map_cons, List.length_cons, List.getD_cons_succ]
      rw [ih (acc ++ [a])]
      simp

/-- The matrix computation agrees with the reference recurrence (on the
reversed strings, i.e. with the recursion running over prefixes). -/
theorem levMatrix_eq (as bs : List Char) :
    (levLoop as bs (List.range (as.length + 1)) 0).getD as.length 0 = levP bs as := by
  have hinit : List.range (as.length + 1) = (prefs [] as).map (fun p => levP [] p) := by
    have h1 : (prefs [] as).map (fun p => levP [] p) = (prefs [] as).map List.length := by
      simp [levP_nil_left]
    rw [h1, prefs_map_length as [], List.range_eq_range']
    rfl
  have h := levLoop_spec as bs []
  simp only [List.length_nil, List.nil_append] at h
  rw [hinit, h, prefs_map_getD (fun p => levP bs p) as []]
  simp

theorem string_length_zero {s : String} (h : s.length = 0) : s = "" := by
  cases s with
  | mk d =>
      have hd : d = [] := List.length_eq_zero.mp h
      rw [hd]

theorem toLowerCase_length (s : String) : (toLowerCase s).length = s.length :=
  List.length_map s.data Char.toLower

theorem levenshteinCore_comm (al bl : String) :
    levenshteinCore al bl = levenshteinCore bl al := by
  unfold levenshteinCore
  by_cases h : al = bl
  · simp [h]
  · have h2 : ¬ bl = al := fun hh => h hh.symm
    rw [if_neg h, if_neg h2]
    by_cases ha : al.length = 0
    · have hb : ¬ bl.length = 0 := by
        intro hb
        exact h (by rw [string_length_zero ha, string_length_zero hb])
      rw [if_pos ha, if_neg hb, if_pos ha]
    · by_cases hb : bl.length = 0
      · rw [if_neg ha, if_pos hb, if_pos hb]
      · rw [if_neg ha, if_neg hb, if_neg hb, if_neg ha]
        rw [levMatrix_eq al.data bl.data, levMatrix_eq bl.data al.data]
        simp [levP, levR_comm]

theorem levenshteinDistance_comm (a b : String) :
    levenshteinDistance a b = levenshteinDistance b a :=
  levenshteinCore_comm _ _

theorem levenshteinDistance_self (x : String) : levenshteinDistance x x = 0 := by
  simp [levenshteinDistance, levenshteinCore]

theorem levenshteinDistance_nil (s : String) : levenshteinDistance "" s = s.length := by
  unfold levenshteinDistance levenshteinCore
  have h1 : toLowerCase "" = "" := rfl
  rw [h1]
  by_cases h : ("" : String) = toLowerCase s
  · rw [if_pos h]
    have h2 := toLowerCase_length s
    rw [← h] at h2
    exact h2
  · rw [if_neg h, if_pos (by rfl)]
    exact toLowerCase_length s

theorem char_toLower_eq_self {c : Char} (h : ¬(c.toNat ≥ 65 ∧ c.toNat ≤ 90)) :
    c.toLower = c := by
  unfold Char.toLower
  exact if_neg h

theorem char_toLower_mapped {c : Char} (h : c.toNat ≥ 65 ∧ c.toNat ≤ 90) :
    c.toLower = Char.ofNat (c.toNat + 32) := by
  unfold Char.toLower
  exact if_pos h

theorem char_toLower_idem (c : Char) : c.toLower.toLower = c.toLower := by
  by_cases h : c.toNat ≥ 65 ∧ c.toNat ≤ 90
  · rw [char_toLower_mapped h]
    apply char_toLower_eq_self
    obtain ⟨h1, h2⟩ := h
    set n := c.toNat with hn
    interval_cases n <;> decide
  · rw [char_toLower_eq_self h, char_toLower_eq_self h]

theorem toLowerCase_idem (s : String) : toLowerCase (toLowerCase s) = toLowerCase s := by
  simp only [toLowerCase, List.map_map]
  congr 1
  apply List.map_congr_left
  intro c _
  exact char_toLower_idem c

/-- Lowering an argument first does not change the distance. -/
theorem levenshteinDistance_toLowerCase_left (a b : String) :
    levenshteinDistance (toLowerCase a) b = levenshteinDistance a b := by
  unfold levenshteinDistance
  rw [toLowerCase_idem]

/-- The distance only depends on the lowered forms of the arguments. -/
theorem levenshteinDistance_congr_right (a : String) {b b2 : String}
    (h : toLowerCase b = toLowerCase b2) :
    levenshteinDistance a b = levenshteinDistance a b2 := by
  unfold levenshteinDistance
  rw [h]

/-- Claim C4: the edit-distance function satisfies `distance(x,x) = 0`,
symmetry, `distance("", s) = length s`, and the concrete values
`distance("", "abc") = 3` and `distance("kitten", "sitting") = 3`. -/
theorem claim4_distance_properties :
    (∀ x : String, levenshteinDistance x x = 0) ∧
    (∀ a b : String, levenshteinDistance a b = levenshteinDistance b a) ∧
    (∀ s : String, levenshteinDistance "" s = s.length) ∧
    levenshteinDistance "" "abc" = 3 ∧
    levenshteinDistance "kitten" "sitting" = 3 :=
  ⟨levenshteinDistance_self, levenshteinDistance_comm, levenshteinDistance_nil,
    by decide, by decide⟩

/-! ### Properties of the sampling loop -/

/-- The draw key of attempt `n`. -/
def drawKey (fns lns : List String) (rand : Nat → Nat × Nat) (n : Nat) : String :=
  toLowerCase (fns.getD ((rand n).1 % fns.length) "") ++ "|" ++
    toLowerCase (lns.getD ((rand n).2 % lns.length) "")

theorem getD_mod_mem {l : List String} (h : l ≠ []) (n : Nat) :
    l.getD (n % l.length) "" ∈ l := by
  have hlt : n % l.length < l.length := Nat.mod_lt _ (List.length_pos.mpr h)
  rw [List.getD_eq_getElem?_getD, List.getElem?_eq_getElem hlt]
  exact List.getElem_mem hlt

theorem sampleLoop_stop (check : String → String → Bool) (fns lns : List String) (count : Nat)
    (rand : Nat → Nat × Nat) (fuel attempts : Nat) (results : List GeneratedPair)
    (attempted : List String) (h : ¬ results.length < count) :
    sampleLoop check fns lns count rand fuel attempts results attempted = results := by
  cases fuel with
  | zero => rfl
  | succ fuel => rw [sampleLoop, if_neg h]

theorem sampleLoop_succ_skip (check : String → String → Bool) (fns lns : List String)
    (count : Nat) (rand : Nat → Nat × Nat) (fuel attempts : Nat) (results : List GeneratedPair)
    (attempted : List String) (hlt : results.length < count)
    (hkey : drawKey fns lns rand attempts ∈ attempted) :
    sampleLoop check fns lns count rand (fuel + 1) attempts results attempted =
      sampleLoop check fns lns count rand fuel (attempts + 1) results attempted := by
  rw [sampleLoop, if_pos hlt]
  exact if_pos hkey

theorem sampleLoop_succ_reject (check : String → String → Bool) (fns lns : List String)
    (count : Nat) (rand : Nat → Nat × Nat) (fuel attempts : Nat) (results : List GeneratedPair)
    (attempted : List String) (hlt : results.length < count)
    (hkey : drawKey fns lns rand attempts ∉ attempted)
    (hchk : check (fns.getD ((rand attempts).1 % fns.length) "")
      (lns.getD ((rand attempts).2 % lns.length) "") = true) :
    sampleLoop check fns lns count rand (fuel + 1) attempts results attempted =
      sampleLoop check fns lns count rand fuel (attempts + 1) results
        (drawKey fns lns rand attempts :: attempted) := by
  rw [sampleLoop, if_pos hlt]
  dsimp only
  have hkey2 : (toLowerCase (fns.getD ((rand attempts).1 % fns.length) "") ++ "|" ++
      toLowerCase (lns.getD ((rand attempts).2 % lns.length) "")) ∉ attempted := hkey
  rw [if_neg hkey2, if_pos hchk]
  rfl

theorem sampleLoop_succ_accept (check : String → String → Bool) (fns lns : List String)
    (count : Nat) (rand : Nat → Nat × Nat) (fuel attempts : Nat) (results : List GeneratedPair)
    (attempted : List String) (hlt : results.length < count)
    (hkey : drawKey fns lns rand attempts ∉ attempted)
    (hchk : check (fns.getD ((rand attempts).1 % fns.length) "")
      (lns.getD ((rand attempts).2 % lns.length) "") = false) :
    sampleLoop check fns lns count rand (fuel + 1) attempts results attempted =
      sampleLoop check fns lns count rand fuel (attempts + 1)
        (results ++ [⟨fns.getD ((rand attempts).1 % fns.length) "",
          lns.getD ((rand attempts).2 % lns.length) ""⟩])
        (drawKey fns lns rand attempts :: attempted) := by
  rw [sampleLoop, if_pos hlt]
  dsimp only
  have hkey2 : (toLowerCase (fns.getD ((rand attempts).1 % fns.length) "") ++ "|" ++
      toLowerCase (lns.getD ((rand attempts).2 % lns.length) "")) ∉ attempted := hkey
  have hchk2 : ¬ (check (fns.getD ((rand attempts).1 % fns.length) "")
      (lns.getD ((rand attempts).2 % lns.length) "") = true) := by
    intro hh
    rw [hchk] at hh
    exact Bool.false_ne_true hh
  rw [if_neg hkey2, if_neg hchk2]
  rfl

/-- If every drawable key is already in the attempted set, the loop returns its
accumulated results unchanged. -/
theorem sampleLoop_all_attempted (check : String → String → Bool) (fns lns : List String)
    (count : Nat) (rand : Nat → Nat × Nat) :
    ∀ (fuel attempts : Nat) (results : List GeneratedPair) (attempted : List String),
      (∀ n, drawKey fns lns rand n ∈ attempted) →
      sampleLoop check fns lns count rand fuel attempts results attempted = results := by
  intro fuel
  induction fuel with
  | zero => intro attempts results attempted _; rfl
  | succ fuel ih =>
      intro attempts results attempted h
      by_cases hlt : results.length < count
      · rw [sampleLoop_succ_skip check fns lns count rand fuel attempts results attempted hlt
          (h attempts)]
        exact ih (attempts + 1) results attempted h
      · exact sampleLoop_stop check fns lns count rand _ attempts results attempted hlt

/-- The loop never accumulates more than `count` results. -/
theorem sampleLoop_le_count (check : String → String → Bool) (fns lns : List String)
    (count : Nat) (rand : Nat → Nat × Nat) :
    ∀ (fuel attempts : Nat) (results : List GeneratedPair) (attempted : List String),
      results.length ≤ count →
      (sampleLoop check fns lns count rand fuel attempts results attempted).length ≤ count := by
  intro fuel
  induction fuel with
  | zero => intro attempts results attempted h; exact h
  | succ fuel ih =>
      intro attempts results attempted h
      by_cases hlt : results.length < count
      · by_cases hkey : drawKey fns lns rand attempts ∈ attempted
        · rw [sampleLoop_succ_skip check fns lns count rand fuel attempts results attempted
            hlt hkey]
          exact ih (attempts + 1) results attempted h
        · by_cases hchk : check (fns.getD ((rand attempts).1 % fns.length) "")
              (lns.getD ((rand attempts).2 % lns.length) "") = true
          · rw [sampleLoop_succ_reject check fns lns count rand fuel attempts results attempted
              hlt hkey hchk]
            exact ih (attempts + 1) results _ h
          · simp only [Bool.not_eq_true] at hchk
            rw [sampleLoop_succ_accept check fns lns count rand fuel attempts results attempted
              hlt hkey hchk]
            apply ih (attempts + 1)
            rw [List.length_append, List.length_singleton]
            omega
      · rw [sampleLoop_stop check fns lns count rand _ attempts results attempted hlt]
        exact h

/-- Soundness invariant of the loop: every accumulated pair passed the check,
its key is recorded in the attempted set, and the keys are pairwise distinct;
all three survive to the final result. -/
theorem sampleLoop_sound (check : String → String → Bool) (fns lns : List String)
    (count : Nat) (rand : Nat → Nat × Nat) :
    ∀ (fuel attempts : Nat) (results : List GeneratedPair) (attempted : List String),
      (∀ p ∈ results, check p.firstname p.lastname = false) →
      (∀ p ∈ results, pairKey p ∈ attempted) →
      results.Pairwise (fun p q => pairKey p ≠ pairKey q) →
      (∀ p ∈ sampleLoop check fns lns count rand fuel attempts results attempted,
          check p.firstname p.lastname = false) ∧
        (sampleLoop check fns lns count rand fuel attempts results attempted).Pairwise
          (fun p q => pairKey p ≠ pairKey q) := by
  intro fuel
  induction fuel with
  | zero => intro attempts results attempted h1 _ h3; exact ⟨h1, h3⟩
  | succ fuel ih =>
      intro attempts results attempted h1 h2 h3
      by_cases hlt : results.length < count
      · by_cases hkey : drawKey fns lns rand attempts ∈ attempted
        · rw [sampleLoop_succ_skip check fns lns count rand fuel attempts results attempted
            hlt hkey]
          exact ih (attempts + 1) results attempted h1 h2 h3
        · by_cases hchk : check (fns.getD ((rand attempts).1 % fns.length) "")
              (lns.getD ((rand attempts).2 % lns.length) "") = true
          · rw [sampleLoop_succ_reject check fns lns count rand fuel attempts results attempted
              hlt hkey hchk]
            apply ih (attempts + 1) results _ h1 _ h3
            intro p hp
            exact List.mem_cons_of_mem _ (h2 p hp)
          · simp only [Bool.not_eq_true] at hchk
            rw [sampleLoop_succ_accept check fns lns count rand fuel attempts results attempted
              hlt hkey hchk]
            have hkeyeq : pairKey ⟨fns.getD ((rand attempts).1 % fns.length) "",
                lns.getD ((rand attempts).2 % lns.length) ""⟩ = drawKey fns lns rand attempts := rfl
            apply ih (attempts + 1)
            · intro p hp
              rcases List.mem_append.mp hp with hp | hp
              · exact h1 p hp
              · simp only [List.mem_singleton] at hp
                rw [hp]
                exact hchk
            · intro p hp
              rcases List.mem_append.mp hp with hp | hp
              · exact List.mem_cons_of_mem _ (h2 p hp)
              · simp only [List.mem_singleton] at hp
                rw [hp, hkeyeq]
                exact List.mem_cons_self _ _
            · rw [List.pairwise_append]
              refine ⟨h3, List.pairwise_singleton _ _, ?_⟩
              intro p hp q hq
              simp only [List.mem_singleton] at hq
              rw [hq]
              intro hcontra
              rw [hkeyeq] at hcontra
              apply hkey
              rw [← hcontra]
              exact h2 p hp
      · rw [sampleLoop_stop check fns lns count rand _ attempts results attempted hlt]
        exact ⟨h1, h3⟩

/-- With non-empty pools whose every drawable pair fails the check, the loop
accepts nothing. -/
theorem sampleLoop_saturated (check : String → String → Bool) (fns lns : List String)
    (count : Nat) (rand : Nat → Nat × Nat) (hfns : fns ≠ []) (hlns : lns ≠ [])
    (hall : ∀ f ∈ fns, ∀ l ∈ lns, check f l = true) :
    ∀ (fuel attempts : Nat) (results : List GeneratedPair) (attempted : List String),
      sampleLoop check fns lns count rand fuel attempts results attempted = results := by
  intro fuel
  induction fuel with
  | zero => intro attempts results attempted; rfl
  | succ fuel ih =>
      intro attempts results attempted
      by_cases hlt : results.length < count
      · by_cases hkey : drawKey fns lns rand attempts ∈ attempted
        · rw [sampleLoop_succ_skip check fns lns count rand fuel attempts results attempted
            hlt hkey]
          exact ih (attempts + 1) results attempted
        · rw [sampleLoop_succ_reject check fns lns count rand fuel attempts results attempted
            hlt hkey (hall _ (getD_mod_mem hfns _) _ (getD_mod_mem hlns _))]
          exact ih (attempts + 1) results _
      · exact sampleLoop_stop check fns lns count rand _ attempts results attempted hlt

/-! ### Unfolding lemmas for the three `generate` entry points -/

theorem Generator.generate_notLoaded_main (st : St) (count : Nat) (sourceFilter : String)
    (rand : Nat → Nat × Nat) (h : st.loaded = false) :
    generate st count sourceFilter rand = Except.error GenError.notLoaded := by
  rw [generate, if_pos h]

theorem Generator.generate_noFirstnames_main (st : St) (count : Nat) (sourceFilter : String)
    (rand : Nat → Nat × Nat) (hl : st.loaded = true)
    (hf : getFirstnames st sourceFilter = []) :
    generate st count sourceFilter rand = Except.error GenError.noFirstnames := by
  rw [generate, if_neg (by simp [hl])]
  dsimp only
  rw [if_pos (by simp [hf])]

theorem Generator.generate_noLastnames_main (st : St) (count : Nat) (sourceFilter : String)
    (rand : Nat → Nat × Nat) (hl : st.loaded = true)
    (hf : getFirstnames st sourceFilter ≠ []) (hln : getLastnames st sourceFilter = []) :
    generate st count sourceFilter rand = Except.error GenError.noLastnames := by
  rw [generate, if_neg (by simp [hl])]
  dsimp only
  rw [if_neg (by simp [hf]), if_pos (by simp [hln])]

theorem Generator.generate_eq_ok_main (st : St) (count : Nat) (sourceFilter : String)
    (rand : Nat → Nat × Nat) (hl : st.loaded = true)
    (hf : getFirstnames st sourceFilter ≠ []) (hln : getLastnames st sourceFilter ≠ []) :
    generate st count sourceFilter rand =
      Except.ok (sampleLoop (isTooSimilarToExisting st) (getFirstnames st sourceFilter)
        (getLastnames st sourceFilter) count rand (count * 500) 0 [] []) := by
  rw [generate, if_neg (by simp [hl])]
  dsimp only
  rw [if_neg (by simp [hf]), if_neg (by simp [hln])]

theorem FullnameVariant.generate_notLoaded_full (st : St) (count : Nat) (sourceFilter : String)
    (rand : Nat → Nat × Nat) (h : st.loaded = false) :
    generate st count sourceFilter rand = Except.error GenError.notLoaded := by
  rw [generate, if_pos h]

theorem FullnameVariant.generate_noFirstnames_full (st : St) (count : Nat) (sourceFilter : String)
    (rand : Nat → Nat × Nat) (hl : st.loaded = true)
    (hf : getFirstnames st sourceFilter = []) :
    generate st count sourceFilter rand = Except.error GenError.noFirstnames := by
  rw [generate, if_neg (by simp [hl])]
  dsimp only
  rw [if_pos (by simp [hf])]

theorem FullnameVariant.generate_noLastnames_full (st : St) (count : Nat) (sourceFilter : String)
    (rand : Nat → Nat × Nat) (hl : st.loaded = true)
    (hf : getFirstnames st sourceFilter ≠ []) (hln : getLastnames st sourceFilter = []) :
    generate st count sourceFilter rand = Except.error GenError.noLastnames := by
  rw [generate, if_neg (by simp [hl])]
  dsimp only
  rw [if_neg (by simp [hf]), if_pos (by simp [hln])]

theorem FullnameVariant.generate_eq_ok_full (st : St) (count : Nat) (sourceFilter : String)
    (rand : Nat → Nat × Nat) (hl : st.loaded = true)
    (hf : getFirstnames st sourceFilter ≠ []) (hln : getLastnames st sourceFilter ≠ []) :
    generate st count sourceFilter rand =
      Except.ok (sampleLoop (isTooSimilarToExisting st) (getFirstnames st sourceFilter)
        (getLastnames st sourceFilter) count rand (count * 100) 0 [] []) := by
  rw [generate, if_neg (by simp [hl])]
  dsimp only
  rw [if_neg (by simp [hf]), if_neg (by simp [hln])]

theorem FlatFileVariant.generate_notLoaded_flat (st : St) (count : Nat) (sourceFilter : String)
    (rand : Nat → Nat × Nat) (h : st.loaded = false) :
    generate st count sourceFilter rand = Except.error GenError.notLoaded := by
  rw [generate, if_pos h]

theorem FlatFileVariant.generate_noFirstnames_flat (st : St) (count : Nat) (sourceFilter : String)
    (rand : Nat → Nat × Nat) (hl : st.loaded = true)
    (hf : getFirstnames st sourceFilter = []) :
    generate st count sourceFilter rand = Except.error GenError.noFirstnames := by
  rw [generate, if_neg (by simp [hl])]
  dsimp only
  rw [if_pos (by simp [hf])]

theorem FlatFileVariant.generate_noLastnames_flat (st : St) (count : Nat) (sourceFilter : String)
    (rand : Nat → Nat × Nat) (hl : st.loaded = true)
    (hf : getFirstnames st sourceFilter ≠ []) (hln : getLastnames st sourceFilter = []) :
    generate st count sourceFilter rand = Except.error GenError.noLastnames := by
  rw [generate, if_neg (by simp [hl])]
  dsimp only
  rw [if_neg (by simp [hf]), if_pos (by simp [hln])]

theorem FlatFileVariant.generate_eq_ok_flat (st : St) (count : Nat) (sourceFilter : String)
    (rand : Nat → Nat × Nat) (hl : st.loaded = true)
    (hf : getFirstnames st sourceFilter ≠ []) (hln : getLastnames st sourceFilter ≠ []) :
    generate st count sourceFilter rand =
      Except.ok (flatSampleLoop (isTooSimilarToExisting st) (getFirstnames st sourceFilter)
        (getLastnames st sourceFilter) count rand (count * 100) 0 [] []) := by
  rw [generate, if_neg (by simp [hl])]
  dsimp only
  rw [if_neg (by simp [hf]), if_neg (by simp [hln])]

/-! ### Claim C6 — generation-time error handling -/

/-- Claim C6: `generate` fails with `NotLoaded` when called before any
successful load, and with a per-role empty-pool error distinguishing the
firstname side from the lastname side; in each failure case the call returns
an error (no pairs) and, `generate` being a pure query, the loaded dataset is
untouched.  Proven for the main variant and the flat-file variant. -/
theorem claim6_generate_errors :
    (∀ (st : Generator.St) (count : Nat) (sourceFilter : String) (rand : Nat → Nat × Nat),
      (st.loaded = false →
        Generator.generate st count sourceFilter rand = Except.error GenError.notLoaded) ∧
      (st.loaded = true → Generator.getFirstnames st sourceFilter = [] →
        Generator.generate st count sourceFilter rand = Except.error GenError.noFirstnames) ∧
      (st.loaded = true → Generator.getFirstnames st sourceFilter ≠ [] →
        Generator.getLastnames st sourceFilter = [] →
        Generator.generate st count sourceFilter rand = Except.error GenError.noLastnames)) ∧
    (∀ (st : FlatFileVariant.St) (count : Nat) (sourceFilter : String) (rand : Nat → Nat × Nat),
      (st.loaded = false →
        FlatFileVariant.generate st count sourceFilter rand = Except.error GenError.notLoaded) ∧
      (st.loaded = true → FlatFileVariant.getFirstnames st sourceFilter = [] →
        FlatFileVariant.generate st count sourceFilter rand =
          Except.error GenError.noFirstnames) ∧
      (st.loaded = true → FlatFileVariant.getFirstnames st sourceFilter ≠ [] →
        FlatFileVariant.getLastnames st sourceFilter = [] →
        FlatFileVariant.generate st count sourceFilter rand =
          Except.error GenError.noLastnames)) :=
  ⟨fun st count sourceFilter rand =>
    ⟨Generator.generate_notLoaded_main st count sourceFilter rand,
     Generator.generate_noFirstnames_main st count sourceFilter rand,
     Generator.generate_noLastnames_main st count sourceFilter rand⟩,
   fun st count sourceFilter rand =>
    ⟨FlatFileVariant.generate_notLoaded_flat st count sourceFilter rand,
     FlatFileVariant.generate_noFirstnames_flat st count sourceFilter rand,
     FlatFileVariant.generate_noLastnames_flat st count sourceFilter rand⟩⟩

theorem claim6_witness :
    Generator.generate ⟨[], [], [], [], false⟩ 10 "all" (fun _ => (0, 0)) =
        Except.error GenError.notLoaded ∧
    Generator.generate ⟨[], [⟨"Savel", "vanilla"⟩], [], [], true⟩ 10 "all" (fun _ => (0, 0)) =
        Except.error GenError.noFirstnames ∧
    Generator.generate ⟨[⟨"Aryon", "vanilla"⟩], [], [], [], true⟩ 10 "all" (fun _ => (0, 0)) =
        Except.error GenError.noLastnames :=
  ⟨(claim6_generate_errors.1 _ 10 "all" _).1 rfl,
   (claim6_generate_errors.1 _ 10 "all" _).2.1 rfl rfl,
   (claim6_generate_errors.1 _ 10 "all" _).2.2 rfl (by decide) rfl⟩

/-! ### Claim C8 — `generate 0` is a no-op -/

/-- Claim C8: with a loaded dataset and non-empty pools, `generate 0` returns
an empty sequence and no error; the attempt budget `0 × K` is zero, so the
random source is never consulted — the result does not depend on it at all.
Proven for the main variant and the fullname variant. -/
theorem claim8_generate_zero :
    (∀ (st : Generator.St) (sourceFilter : String) (r1 r2 : Nat → Nat × Nat),
      Generator.generate st 0 sourceFilter r1 = Generator.generate st 0 sourceFilter r2) ∧
    (∀ (st : Generator.St) (sourceFilter : String) (rand : Nat → Nat × Nat),
      st.loaded = true → Generator.getFirstnames st sourceFilter ≠ [] →
      Generator.getLastnames st sourceFilter ≠ [] →
      Generator.generate st 0 sourceFilter rand = Except.ok []) ∧
    (∀ (st : FullnameVariant.St) (sourceFilter : String) (r1 r2 : Nat → Nat × Nat),
      FullnameVariant.generate st 0 sourceFilter r1 = FullnameVariant.generate st 0 sourceFilter r2) ∧
    (∀ (st : FullnameVariant.St) (sourceFilter : String) (rand : Nat → Nat × Nat),
      st.loaded = true → FullnameVariant.getFirstnames st sourceFilter ≠ [] →
      FullnameVariant.getLastnames st sourceFilter ≠ [] →
      FullnameVariant.generate st 0 sourceFilter rand = Except.ok []) := by
  refine ⟨?_, ?_, ?_, ?_⟩
  · intro st sourceFilter r1 r2
    by_cases hl : st.loaded = false
    · rw [Generator.generate_notLoaded_main st 0 sourceFilter r1 hl,
        Generator.generate_notLoaded_main st 0 sourceFilter r2 hl]
    · have hl2 : st.loaded = true := by revert hl; cases st.loaded <;> simp
      by_cases hf : Generator.getFirstnames st sourceFilter = []
      · rw [Generator.generate_noFirstnames_main st 0 sourceFilter r1 hl2 hf,
          Generator.generate_noFirstnames_main st 0 sourceFilter r2 hl2 hf]
      · by_cases hln : Generator.getLastnames st sourceFilter = []
        · rw [Generator.generate_noLastnames_main st 0 sourceFilter r1 hl2 hf hln,
            Generator.generate_noLastnames_main st 0 sourceFilter r2 hl2 hf hln]
        · rw [Generator.generate_eq_ok_main st 0 sourceFilter r1 hl2 hf hln,
            Generator.generate_eq_ok_main st 0 sourceFilter r2 hl2 hf hln]
          rfl
  · intro st sourceFilter rand hl hf hln
    rw [Generator.generate_eq_ok_main st 0 sourceFilter rand hl hf hln]
    rfl
  · intro st sourceFilter r1 r2
    by_cases hl : st.loaded = false
    · rw [FullnameVariant.generate_notLoaded_full st 0 sourceFilter r1 hl,
        FullnameVariant.generate_notLoaded_full st 0 sourceFilter r2 hl]
    · have hl2 : st.loaded = true := by revert hl; cases st.loaded <;> simp
      by_cases hf : FullnameVariant.getFirstnames st sourceFilter = []
      · rw [FullnameVariant.generate_noFirstnames_full st 0 sourceFilter r1 hl2 hf,
          FullnameVariant.generate_noFirstnames_full st 0 sourceFilter r2 hl2 hf]
      · by_cases hln : FullnameVariant.getLastnames st sourceFilter = []
        · rw [FullnameVariant.generate_noLastnames_full st 0 sourceFilter r1 hl2 hf hln,
            FullnameVariant.generate_noLastnames_full st 0 sourceFilter r2 hl2 hf hln]
        · rw [FullnameVariant.generate_eq_ok_full st 0 sourceFilter r1 hl2 hf hln,
            FullnameVariant.generate_eq_ok_full st 0 sourceFilter r2 hl2 hf hln]
          rfl
  · intro st sourceFilter rand hl hf hln
    rw [FullnameVariant.generate_eq_ok_full st 0 sourceFilter rand hl hf hln]
    rfl

theorem claim8_witness :
    Generator.generate stAryon 0 "all" (fun _ => (0, 0)) = Except.ok [] ∧
    FullnameVariant.generate stFull 0 "all" (fun _ => (0, 0)) = Except.ok [] :=
  ⟨claim8_generate_zero.2.1 stAryon "all" _ rfl (by decide) (by decide),
   claim8_generate_zero.2.2.2 stFull "all" _ rfl (by decide) (by decide)⟩

/-! ### Claim C2 — bounded sampling always terminates with at most `count` results -/

/-- Claim C2: `generate` is total (fuelled by its attempt budget `count × K`,
`K = 500` here) and, under its preconditions, never throws: it returns `ok`
with at most `count` pairs; the loop returns its accumulated results as soon as
they reach `count` (early stop) or when the budget hits zero; and when every
drawable pair is rejected as existing/too similar it returns `ok []` —
fewer than `count` whenever `count > 0` — instead of failing. -/
theorem claim2_bounded_generation :
    (∀ (st : Generator.St) (count : Nat) (sourceFilter : String) (rand : Nat → Nat × Nat),
      st.loaded = true → Generator.getFirstnames st sourceFilter ≠ [] →
      Generator.getLastnames st sourceFilter ≠ [] →
      ∃ r, Generator.generate st count sourceFilter rand = Except.ok r ∧ r.length ≤ count) ∧
    (∀ (check : String → String → Bool) (fns lns : List String) (count : Nat)
      (rand : Nat → Nat × Nat) (fuel attempts : Nat) (results : List GeneratedPair)
      (attempted : List String), ¬ results.length < count →
      sampleLoop check fns lns count rand fuel attempts results attempted = results) ∧
    (∀ (check : String → String → Bool) (fns lns : List String) (count : Nat)
      (rand : Nat → Nat × Nat) (attempts : Nat) (results : List GeneratedPair)
      (attempted : List String),
      sampleLoop check fns lns count rand 0 attempts results attempted = results) ∧
    (∀ (st : Generator.St) (count : Nat) (sourceFilter : String) (rand : Nat → Nat × Nat),
      st.loaded = true → Generator.getFirstnames st sourceFilter ≠ [] →
      Generator.getLastnames st sourceFilter ≠ [] →
      (∀ f ∈ Generator.getFirstnames st sourceFilter,
        ∀ l ∈ Generator.getLastnames st sourceFilter,
          Generator.isTooSimilarToExisting st f l = true) →
      Generator.generate st count sourceFilter rand = Except.ok []) := by
  refine ⟨?_, ?_, ?_, ?_⟩
  · intro st count sourceFilter rand hl hf hln
    refine ⟨_, Generator.generate_eq_ok_main st count sourceFilter rand hl hf hln, ?_⟩
    exact sampleLoop_le_count _ _ _ _ _ _ _ _ _ (by simp)
  · intro check fns lns count rand fuel attempts results attempted h
    exact sampleLoop_stop check fns lns count rand fuel attempts results attempted h
  · intro check fns lns count rand attempts results attempted
    rfl
  · intro st count sourceFilter rand hl hf hln hall
    rw [Generator.generate_eq_ok_main st count sourceFilter rand hl hf hln,
      sampleLoop_saturated _ _ _ _ _ hf hln hall]

theorem claim2_witness :
    (∃ r, Generator.generate stAryon 2 "all" (fun n => (n, n)) = Except.ok r ∧ r.length ≤ 2) ∧
    Generator.generate stSat 3 "all" (fun _ => (0, 0)) = Except.ok [] :=
  ⟨claim2_bounded_generation.1 stAryon 2 "all" (fun n => (n, n)) rfl (by decide) (by decide),
   claim2_bounded_generation.2.2.2 stSat 3 "all" (fun _ => (0, 0)) rfl (by decide) (by decide)
     (by decide)⟩

/-! ### Claim C1 — the emission-time invariant -/

/-- Inverting a negative similarity check: no exact existing pair, and no
same-lastname existing firstname within distance 3. -/
theorem Generator.isTooSimilar_eq_false {st : St} {fn ln : String}
    (h : isTooSimilarToExisting st fn ln = false) :
    (toLowerCase fn, toLowerCase ln) ∉ existingPairs st ∧
      ∀ e ∈ existingPairs st, e.2 = toLowerCase ln → ¬ levenshteinDistance fn e.1 < 3 := by
  unfold isTooSimilarToExisting at h
  dsimp only at h
  by_cases hmem : (toLowerCase fn, toLowerCase ln) ∈ existingPairs st
  · rw [if_pos hmem] at h
    exact absurd h (by simp)
  · rw [if_neg hmem] at h
    refine ⟨hmem, ?_⟩
    intro e he heq hdist
    unfold existsSimilar at h
    rw [List.any_eq_false] at h
    apply h e he
    rw [Bool.and_eq_true, beq_iff_eq]
    refine ⟨heq, ?_⟩
    unfold areTooSimilar
    rw [levenshteinDistance_toLowerCase_left]
    exact decide_eq_true hdist

/-- Claim C1: every pair emitted by `generate` (a) is not an exact
case-insensitive match of an existing pair, (b) has a firstname at edit
distance at least 3 from the firstname of every existing pair with the same
(case-insensitive) lastname, and (c) is not a case-insensitive duplicate of
another pair emitted in the same call.  In the spec scenario — pools
Aryon/Dilborn × Savel with `Aryon Savel` the only existing pair — no emitted
pair is `Savel` with a firstname within 2 edits of `Aryon`, while
`Dilborn Savel` is emitted for a suitable random sequence. -/
theorem claim1_emission_invariant :
    (∀ (st : Generator.St) (count : Nat) (sourceFilter : String) (rand : Nat → Nat × Nat)
      (r : List GeneratedPair), Generator.generate st count sourceFilter rand = Except.ok r →
      (∀ p ∈ r, (toLowerCase p.firstname, toLowerCase p.lastname) ∉ Generator.existingPairs st) ∧
      (∀ p ∈ r, ∀ e ∈ Generator.existingPairs st, e.2 = toLowerCase p.lastname →
        ¬ levenshteinDistance p.firstname e.1 < 3) ∧
      r.Pairwise (fun p q => ¬(toLowerCase p.firstname = toLowerCase q.firstname ∧
        toLowerCase p.lastname = toLowerCase q.lastname))) ∧
    (∀ (rand : Nat → Nat × Nat) (r : List GeneratedPair),
      Generator.generate stAryon 5 "all" rand = Except.ok r →
      ∀ p ∈ r, ¬(toLowerCase p.lastname = "savel" ∧
        levenshteinDistance p.firstname "Aryon" < 3)) ∧
    Generator.generate stAryon 5 "all" (fun _ => (1, 0)) =
      Except.ok [⟨"Dilborn", "Savel"⟩] := by
  have hmain : ∀ (st : Generator.St) (count : Nat) (sourceFilter : String)
      (rand : Nat → Nat × Nat) (r : List GeneratedPair),
      Generator.generate st count sourceFilter rand = Except.ok r →
      (∀ p ∈ r, (toLowerCase p.firstname, toLowerCase p.lastname) ∉ Generator.existingPairs st) ∧
      (∀ p ∈ r, ∀ e ∈ Generator.existingPairs st, e.2 = toLowerCase p.lastname →
        ¬ levenshteinDistance p.firstname e.1 < 3) ∧
      r.Pairwise (fun p q => ¬(toLowerCase p.firstname = toLowerCase q.firstname ∧
        toLowerCase p.lastname = toLowerCase q.lastname)) := by
    intro st count sourceFilter rand r hok
    by_cases hl : st.loaded = false
    · rw [Generator.generate_notLoaded_main st count sourceFilter rand hl] at hok
      exact absurd hok (by simp)
    · have hl2 : st.loaded = true := by revert hl; cases st.loaded <;> simp
      by_cases hf : Generator.getFirstnames st sourceFilter = []
      · rw [Generator.generate_noFirstnames_main st count sourceFilter rand hl2 hf] at hok
        exact absurd hok (by simp)
      · by_cases hln : Generator.getLastnames st sourceFilter = []
        · rw [Generator.generate_noLastnames_main st count sourceFilter rand hl2 hf hln] at hok
          exact absurd hok (by simp)
        · rw [Generator.generate_eq_ok_main st count sourceFilter rand hl2 hf hln] at hok
          have hr : r = sampleLoop (Generator.isTooSimilarToExisting st)
              (Generator.getFirstnames st sourceFilter) (Generator.getLastnames st sourceFilter)
              count rand (count * 500) 0 [] [] := by
            cases hok
            rfl
          have hsound := sampleLoop_sound (Generator.isTooSimilarToExisting st)
            (Generator.getFirstnames st sourceFilter) (Generator.getLastnames st sourceFilter)
            count rand (count * 500) 0 [] []
            (by intro p hp; cases hp) (by intro p hp; cases hp) List.Pairwise.nil
          rw [← hr] at hsound
          refine ⟨?_, ?_, ?_⟩
          · intro p hp
            exact (Generator.isTooSimilar_eq_false (hsound.1 p hp)).1
          · intro p hp
            exact (Generator.isTooSimilar_eq_false (hsound.1 p hp)).2
          · apply hsound.2.imp
            intro p q hkeys hcomp
            apply hkeys
            unfold pairKey
            rw [hcomp.1, hcomp.2]
  refine ⟨hmain, ?_, ?_⟩
  · intro rand r hok p hp hcontra
    have hmem : (("aryon", "savel") : String × String) ∈ Generator.existingPairs stAryon := by
      decide
    have hb := (hmain stAryon 5 "all" rand r hok).2.1 p hp ("aryon", "savel") hmem hcontra.1.symm
    apply hb
    rw [show levenshteinDistance p.firstname "aryon" = levenshteinDistance p.firstname "Aryon"
      from levenshteinDistance_congr_right p.firstname (by decide)]
    exact hcontra.2
  · have hf : Generator.getFirstnames stAryon "all" = ["Aryon", "Dilborn"] := by decide
    have hln : Generator.getLastnames stAryon "all" = ["Savel"] := by decide
    rw [Generator.generate_eq_ok_main stAryon 5 "all" (fun _ => (1, 0)) rfl (by decide) (by decide),
      hf, hln]
    have hfuel : (5 * 500 : Nat) = 2499 + 1 := by norm_num
    rw [hfuel]
    rw [sampleLoop_succ_accept (Generator.isTooSimilarToExisting stAryon) ["Aryon", "Dilborn"]
      ["Savel"] 5 (fun _ => (1, 0)) 2499 0 [] [] (by decide) (by decide) (by decide)]
    exact congrArg Except.ok (sampleLoop_all_attempted (Generator.isTooSimilarToExisting stAryon)
      ["Aryon", "Dilborn"] ["Savel"] 5 (fun _ => (1, 0)) 2499 (0 + 1) _ _
      (fun n => List.mem_singleton.mpr rfl))

theorem claim1_witness :
    (toLowerCase "Dilborn", toLowerCase "Savel") ∉ Generator.existingPairs stAryon :=
  (claim1_emission_invariant.1 stAryon 5 "all" (fun _ => (1, 0)) [⟨"Dilborn", "Savel"⟩]
    claim1_emission_invariant.2.2).1 ⟨"Dilborn", "Savel"⟩ (List.mem_singleton.mpr rfl)

/-! ### Claim C3 — the similarity rejection is exactly the same-lastname scan -/

/-- Claim C3: the similarity scan fires exactly when some existing pair has a
case-insensitively identical lastname and a firstname within edit distance 3
of the candidate firstname; existing pairs with a different lastname never
trigger it, however close their firstname is. -/
theorem claim3_similarity_iff :
    ∀ (pairs : List (String × String)) (fn ln : String),
      (Generator.existsSimilar pairs (toLowerCase fn) (toLowerCase ln) = true ↔
        ∃ e ∈ pairs, e.2 = toLowerCase ln ∧ levenshteinDistance fn e.1 < 3) ∧
      ((∀ e ∈ pairs, e.2 ≠ toLowerCase ln) →
        Generator.existsSimilar pairs (toLowerCase fn) (toLowerCase ln) = false) := by
  intro pairs fn ln
  have hiff : Generator.existsSimilar pairs (toLowerCase fn) (toLowerCase ln) = true ↔
      ∃ e ∈ pairs, e.2 = toLowerCase ln ∧ levenshteinDistance fn e.1 < 3 := by
    unfold Generator.existsSimilar
    rw [List.any_eq_true]
    constructor
    · rintro ⟨e, he, hcond⟩
      rw [Bool.and_eq_true, beq_iff_eq] at hcond
      refine ⟨e, he, hcond.1, ?_⟩
      have := hcond.2
      unfold areTooSimilar at this
      rw [levenshteinDistance_toLowerCase_left] at this
      exact of_decide_eq_true this
    · rintro ⟨e, he, heq, hdist⟩
      refine ⟨e, he, ?_⟩
      rw [Bool.and_eq_true, beq_iff_eq]
      refine ⟨heq, ?_⟩
      unfold areTooSimilar
      rw [levenshteinDistance_toLowerCase_left]
      exact decide_eq_true hdist
  refine ⟨hiff, ?_⟩
  intro hnone
  rcases Bool.eq_false_or_eq_true
      (Generator.existsSimilar pairs (toLowerCase fn) (toLowerCase ln)) with h | h
  · obtain ⟨e, he, heq, _⟩ := hiff.mp h
    exact absurd heq (hnone e he)
  · exact h

theorem claim3_witness :
    Generator.existsSimilar [("aryon", "savel")] (toLowerCase "Vedam") (toLowerCase "Hlaalu")
      = false :=
  (claim3_similarity_iff [("aryon", "savel")] "Vedam" "Hlaalu").2 (by decide)

/-! ### Claim C9 — blacklisted names still populate the existing-pairs index -/

/-- Claim C9: in the cross-product variant the existing-pairs cache ignores the
blacklists: with `Aryon` blacklisted (hence not drawable), the candidate
`Aryn Savel` — whose firstname is 1 edit from `Aryon` — is still rejected, and
`generate` consequently returns nothing from the one-pair pool. -/
theorem claim9_blacklist_still_blocks :
    toLowerCase "Aryon" ∈ stSat.blacklistedFirstnames ∧
    "Aryon" ∉ Generator.getFirstnames stSat "all" ∧
    Generator.existingPairs stSat = [("aryon", "savel")] ∧
    levenshteinDistance "Aryn" "Aryon" < 3 ∧
    Generator.isTooSimilarToExisting stSat "Aryn" "Savel" = true ∧
    Generator.generate stSat 1 "all" (fun _ => (0, 0)) = Except.ok [] := by
  refine ⟨by decide, by decide, by decide, by decide, by decide, ?_⟩
  rw [Generator.generate_eq_ok_main stSat 1 "all" (fun _ => (0, 0)) rfl (by decide) (by decide),
    sampleLoop_saturated _ _ _ _ _ (by decide) (by decide) (by decide)]

/-! ### Claim C5 — load-time emptiness detection (corrected) -/

/-- Counterexample to claim C5 as stated: a dataset whose one firstname is
blacklisted loads without any `DataMissing` error (and is marked loaded), yet
the filtered firstname pool is empty — the eager check looks at the raw loaded
lists, not at the pools after blacklist filtering. -/
theorem claim5_counterexample :
    (Generator.loadData [⟨"Aryon", "vanilla"⟩] [⟨"Savel", "vanilla"⟩] ["aryon"] []).2 = none ∧
    (Generator.loadData [⟨"Aryon", "vanilla"⟩] [⟨"Savel", "vanilla"⟩] ["aryon"] []).1.loaded
      = true ∧
    Generator.getFirstnames
      (Generator.loadData [⟨"Aryon", "vanilla"⟩] [⟨"Savel", "vanilla"⟩] ["aryon"] []).1 "all"
      = [] := by
  refine ⟨rfl, rfl, by decide⟩

/-- Claim C5 as amended: `loadData` fails iff the raw loaded firstname or
lastname list is empty — before any blacklist filtering — reporting the empty
side, and the session is marked loaded exactly when no error is raised; the
check is eager (it is decided by `loadData` itself from the loaded lists). -/
theorem claim5_load_errors :
    ∀ (fns lns : List NameRec) (blF blL : List String),
      ((Generator.loadData fns lns blF blL).2 ≠ none ↔ fns = [] ∨ lns = []) ∧
      ((Generator.loadData fns lns blF blL).2 = none ↔
        (Generator.loadData fns lns blF blL).1.loaded = true) ∧
      (fns = [] → (Generator.loadData fns lns blF blL).2 = some LoadError.noFirstnames) ∧
      (fns ≠ [] → lns = [] →
        (Generator.loadData fns lns blF blL).2 = some LoadError.noLastnames) := by
  intro fns lns blF blL
  unfold Generator.loadData
  by_cases hf : fns.length = 0
  · have hf2 : fns = [] := List.length_eq_zero.mp hf
    rw [if_pos hf]
    simp [hf2]
  · have hf2 : fns ≠ [] := by
      intro hh
      rw [hh] at hf
      exact hf rfl
    rw [if_neg hf]
    by_cases hl : lns.length = 0
    · have hl2 : lns = [] := List.length_eq_zero.mp hl
      rw [if_pos hl]
      simp [hf2, hl2]
    · have hl2 : lns ≠ [] := by
        intro hh
        rw [hh] at hl
        exact hl rfl
      rw [if_neg hl]
      simp [hf2, hl2]

theorem claim5_witness :
    (Generator.loadData [] [⟨"Savel", "vanilla"⟩] [] []).2 = some LoadError.noFirstnames :=
  (claim5_load_errors [] [⟨"Savel", "vanilla"⟩] [] []).2.2.1 rfl

/-! ### Claim C7 — pool filtering (corrected) -/

/-- Invariant of the dedup loop: every returned name avoids the blacklist and
the already-seen set, and returned names are pairwise distinct after
lowering. -/
theorem dedupNames_invariant (blacklist : List String) :
    ∀ (l : List NameRec) (seen : List String),
      (∀ x ∈ dedupNames blacklist l seen,
        toLowerCase x ∉ blacklist ∧ toLowerCase x ∉ seen) ∧
      (dedupNames blacklist l seen).Pairwise (fun a b => toLowerCase a ≠ toLowerCase b) := by
  intro l
  induction l with
  | nil => intro seen; exact ⟨fun x hx => absurd hx (List.not_mem_nil x), List.Pairwise.nil⟩
  | cons fn rest ih =>
      intro seen
      rw [dedupNames]
      by_cases hc : toLowerCase fn.name ∈ blacklist ∨ toLowerCase fn.name ∈ seen
      · rw [if_pos hc]
        exact ih seen
      · rw [if_neg hc]
        push_neg at hc
        constructor
        · intro x hx
          rcases List.mem_cons.mp hx with hx | hx
          · rw [hx]
            exact hc
          · have := (ih (toLowerCase fn.name :: seen)).1 x hx
            exact ⟨this.1, fun hs => this.2 (List.mem_cons_of_mem _ hs)⟩
        · rw [List.pairwise_cons]
          refine ⟨?_, (ih (toLowerCase fn.name :: seen)).2⟩
          intro y hy heq
          have := (ih (toLowerCase fn.name :: seen)).1 y hy
          exact this.2 (by rw [← heq]; exact List.mem_cons_self _ _)

/-- The dedup loop returns a subsequence of the incoming names, so insertion
order of first occurrences is preserved. -/
theorem dedupNames_sublist (blacklist : List String) :
    ∀ (l : List NameRec) (seen : List String),
      List.Sublist (dedupNames blacklist l seen) (l.map NameRec.name) := by
  intro l
  induction l with
  | nil => intro seen; exact List.Sublist.refl []
  | cons fn rest ih =>
      intro seen
      rw [dedupNames]
      by_cases hc : toLowerCase fn.name ∈ blacklist ∨ toLowerCase fn.name ∈ seen
      · rw [if_pos hc]
        exact List.Sublist.cons _ (ih seen)
      · rw [if_neg hc]
        exact List.Sublist.cons₂ _ (ih (toLowerCase fn.name :: seen))

/-- Every name returned by the dedup loop is the name of one of the records. -/
theorem dedupNames_mem (blacklist : List String) (l : List NameRec) (seen : List String)
    (x : String) (hx : x ∈ dedupNames blacklist l seen) : ∃ r ∈ l, r.name = x := by
  have hmem : x ∈ l.map NameRec.name := (dedupNames_sublist blacklist l seen).mem hx
  obtain ⟨r, hr, hname⟩ := List.mem_map.mp hmem
  exact ⟨r, hr, hname⟩

/-- Completeness of the dedup loop: a non-blacklisted record is represented in
the output up to case, unless its lowered name was already seen. -/
theorem dedupNames_complete (blacklist : List String) :
    ∀ (l : List NameRec) (seen : List String) (r : NameRec), r ∈ l →
      toLowerCase r.name ∉ blacklist →
      (∃ x ∈ dedupNames blacklist l seen, toLowerCase x = toLowerCase r.name) ∨
        toLowerCase r.name ∈ seen := by
  intro l
  induction l with
  | nil => intro seen r hr; exact absurd hr (List.not_mem_nil r)
  | cons fn rest ih =>
      intro seen r hr hbl
      rw [dedupNames]
      by_cases hc : toLowerCase fn.name ∈ blacklist ∨ toLowerCase fn.name ∈ seen
      · rw [if_pos hc]
        rcases List.mem_cons.mp hr with hr | hr
        · rw [hr] at hbl
          rcases hc with hc | hc
          · exact absurd hc hbl
          · rw [hr]
            exact Or.inr hc
        · exact ih seen r hr hbl
      · rw [if_neg hc]
        rcases List.mem_cons.mp hr with hr | hr
        · exact Or.inl ⟨fn.name, List.mem_cons_self _ _, by rw [hr]⟩
        · rcases ih (toLowerCase fn.name :: seen) r hr hbl with ⟨x, hx, hxeq⟩ | hseen
          · exact Or.inl ⟨x, List.mem_cons_of_mem _ hx, hxeq⟩
          · rcases List.mem_cons.mp hseen with hseen | hseen
            · exact Or.inl ⟨fn.name, List.mem_cons_self _ _, hseen.symm⟩
            · exact Or.inr hseen

theorem Generator.filterFirstnames_expanded (st : St) :
    filterFirstnames st "expanded" =
      st.allFirstnames.filter
        (fun fn => fn.source == "tr" || fn.source == "sky" || fn.source == "pc") := rfl

/-- Counterexample to claim C7 as stated: a loaded firstname tagged with the
provenance `custom` — neither the base tag nor blacklisted — is absent from
`getFirstnames "expanded"`, so `expanded` does not return every non-base
name. -/
theorem claim7_counterexample :
    (⟨"Foo", "custom"⟩ : NameRec) ∈ stCustom.allFirstnames ∧
    "custom" ≠ "vanilla" ∧
    toLowerCase "Foo" ∉ stCustom.blacklistedFirstnames ∧
    Generator.getFirstnames stCustom "expanded" = [] := by
  refine ⟨by decide, by decide, by decide, by decide⟩

/-- Claim C7 as amended: `getFirstnames "expanded"` returns exactly the names
tagged `tr`, `sky` or `pc` (every non-blacklisted such record is represented
up to case, and nothing else is returned); and for every filter the result has
no case-insensitive duplicates, contains no blacklisted name, and is a
subsequence of the filtered records in insertion order (the casing of a first
occurrence is preserved, being the casing of the record itself). -/
theorem claim7_pool_filtering :
    (∀ (st : Generator.St) (x : String), x ∈ Generator.getFirstnames st "expanded" →
      ∃ r ∈ st.allFirstnames, r.name = x ∧
        (r.source = "tr" ∨ r.source = "sky" ∨ r.source = "pc")) ∧
    (∀ (st : Generator.St) (sourceFilter : String),
      (Generator.getFirstnames st sourceFilter).Pairwise
        (fun a b => toLowerCase a ≠ toLowerCase b)) ∧
    (∀ (st : Generator.St) (sourceFilter : String) (x : String),
      x ∈ Generator.getFirstnames st sourceFilter →
        toLowerCase x ∉ st.blacklistedFirstnames) ∧
    (∀ (st : Generator.St) (sourceFilter : String),
      List.Sublist (Generator.getFirstnames st sourceFilter)
        ((Generator.filterFirstnames st sourceFilter).map NameRec.name)) ∧
    (∀ (st : Generator.St) (r : NameRec), r ∈ st.allFirstnames →
      (r.source = "tr" ∨ r.source = "sky" ∨ r.source = "pc") →
      toLowerCase r.name ∉ st.blacklistedFirstnames →
      ∃ x ∈ Generator.getFirstnames st "expanded", toLowerCase x = toLowerCase r.name) := by
  refine ⟨?_, ?_, ?_, ?_, ?_⟩
  · intro st x hx
    obtain ⟨r, hr, hname⟩ := dedupNames_mem st.blacklistedFirstnames _ [] x hx
    rw [Generator.filterFirstnames_expanded] at hr
    obtain ⟨hmem, hcond⟩ := List.mem_filter.mp hr
    refine ⟨r, hmem, hname, ?_⟩
    have h2 := hcond
    simp only [Bool.or_eq_true, beq_iff_eq] at h2
    tauto
  · intro st sourceFilter
    exact (dedupNames_invariant st.blacklistedFirstnames _ []).2
  · intro st sourceFilter x hx
    exact ((dedupNames_invariant st.blacklistedFirstnames _ []).1 x hx).1
  · intro st sourceFilter
    exact dedupNames_sublist st.blacklistedFirstnames _ []
  · intro st r hmem hsrc hbl
    have hr : r ∈ Generator.filterFirstnames st "expanded" := by
      rw [Generator.filterFirstnames_expanded]
      refine List.mem_filter.mpr ⟨hmem, ?_⟩
      rcases hsrc with h | h | h <;> simp [h]
    rcases dedupNames_complete st.blacklistedFirstnames _ [] r hr hbl with ⟨x, hx, hxe⟩ | habs
    · exact ⟨x, hx, hxe⟩
    · exact absurd habs (List.not_mem_nil _)

theorem claim7_witness :
    toLowerCase "Aryon" ∉ stAryon.blacklistedFirstnames :=
  claim7_pool_filtering.2.2.1 stAryon "all" "Aryon" (by decide)

/-! ### Claim C10 — single-word NPCs never block candidates -/

/-- A list `any` over a predicate that is false wherever `p` fails can be
restricted to the `p`-filtered list. -/
theorem any_eq_any_filter {α : Type} (p : α → Bool) (f : α → Bool)
    (h : ∀ x, p x = false → f x = false) :
    ∀ l : List α, l.any f = (l.filter p).any f := by
  intro l
  induction l with
  | nil => rfl
  | cons x rest ih =>
      by_cases hp : p x = true
      · rw [List.any_cons, List.filter_cons_of_pos hp, List.any_cons, ih]
      · have hp2 : p x = false := by
          revert hp; cases p x <;> simp
        rw [List.any_cons, List.filter_cons_of_neg (by simp [hp2]), h x hp2, ih]
        simp

/-- Claim C10: an existing record parsed without a lastname never blocks any
candidate — the similarity check is unchanged when all `lastname = none`
records are removed — and a generated pair may share its firstname exactly
with such a single-word NPC (`Aryon` here). -/
theorem claim10_single_name_npcs :
    (∀ (st : FlatFileVariant.St) (fn ln : String),
      FlatFileVariant.isTooSimilarToExisting st fn ln =
        FlatFileVariant.isTooSimilarToExisting
          { st with npcs := st.npcs.filter (fun npc => npc.lastname.isSome) } fn ln) ∧
    (⟨"Aryon", none, "vanilla"⟩ : FlatFileVariant.NPC) ∈ stFlat.npcs ∧
    FlatFileVariant.generate stFlat 1 "all" (fun _ => (0, 0)) =
      Except.ok [⟨"Aryon", "Savel"⟩] := by
  refine ⟨?_, by decide, ?_⟩
  · intro st fn ln
    unfold FlatFileVariant.isTooSimilarToExisting
    dsimp only
    apply any_eq_any_filter
    intro npc hp
    cases hnl : npc.lastname with
    | none => simp only [hnl]
    | some l => simp [hnl] at hp
  · rfl
